import Mathlib

set_option maxHeartbeats 1000000

/-!
Shallow embedding of the query-execution engine of
`src/cbc_sdk/threathunter/base.py`: the synchronous paginated search
(`Query._search`), the asynchronous job controller
(`AsyncProcessQuery._submit` / `_still_querying` / `_count` / `_search`)
and the incremental tree fetcher (`TreeQuery._perform_query`).

Transport calls are modelled as pure oracles: a search endpoint is a
function from the call index and the request parameters to a response, a
job-status endpoint is a function from the poll index to the reported
searcher counts, and the wall clock is a function from the poll index to
the current time in milliseconds.  Python generators are modelled as
fuel-indexed functions returning `Option` (with `none` meaning the loop
has not finished within the given fuel), and raised exceptions as
`Except` values.
-/

/-- Result documents are opaque to the query engine; we model them as naturals. -/
abbrev Doc := Nat

/-- The pagination-relevant part of a search request body: the optional
cursor (`args["start"]`, omitted by `Query._search` on the first request
when `start == 0`) and the requested page size (`args["rows"]`). -/
structure SearchReq where
  start : Option Nat
  rows : Nat
deriving DecidableEq

/-- The pagination-relevant part of a search / job-results response:
the item list (`results`) and the backend's advisory total (`num_available`). -/
structure SearchResp where
  results : List Doc
  num_available : Nat
deriving DecidableEq

/-- Errors raised by the engine. The Python code raises `ApiError` with a
message (this covers the spec's `AlreadySubmitted` and `MissingParameter`
cases) and `TimeoutError` with a message. -/
inductive Err where
  | apiError : String → Err
  | timeoutError : String → Err
deriving DecidableEq

/-- The body of the `for item in results:` loop of `Query._search`: yields
items one at a time, advancing `current` and `numrows`, and breaks with
`still_querying = False` when the requested row limit is hit exactly
(`if rows and numrows == rows`).  Returns
(yielded items, current, numrows, still_querying). -/
def syncProcessItems (rows : Nat) : Nat → Nat → List Doc → List Doc × Nat × Nat × Bool
  | current, numrows, [] => ([], current, numrows, true)
  | current, numrows, item :: rest =>
    if rows ≠ 0 ∧ numrows + 1 = rows then ([item], current + 1, numrows + 1, false)
    else
      match syncProcessItems rows (current + 1) (numrows + 1) rest with
      | (ys, c, n, s) => (item :: ys, c, n, s)

/-- One transport oracle: the response of the search endpoint to the `k`-th
call carrying the given request parameters. -/
abbrev Fetcher := Nat → SearchReq → SearchResp

/-- The `while still_querying:` loop of `Query._search`.  Arguments after
the fuel: the call index `k`, the `current` cursor, the `numrows` counter
and the `start` currently stored in `args` (`none` when the key is absent).
Each iteration posts the request, reads `num_available`, yields the page
via `syncProcessItems`, sets `args["start"] = current + 1` (the 1-based
backend convention), then stops if the cursor reached the reported total,
or — clamping the total down to the cursor — if the page was empty, or if
the row limit was hit.  Returns (yielded items, final total_results,
number of page fetches); `none` means fuel ran out. -/
def syncLoop (fetch : Fetcher) (rows batchSize : Nat) :
    Nat → Nat → Nat → Nat → Option Nat → Option (List Doc × Nat × Nat)
  | 0, _, _, _, _ => none
  | fuel + 1, k, current, numrows, astart =>
    let resp := fetch k { start := astart, rows := batchSize }
    let pi := syncProcessItems rows current numrows resp.results
    if pi.2.1 ≥ resp.num_available then some (pi.1, resp.num_available, 1)
    else if resp.results = [] then some (pi.1, pi.2.1, 1)
    else if pi.2.2.2 = false then some (pi.1, resp.num_available, 1)
    else
      match syncLoop fetch rows batchSize fuel (k + 1) pi.2.1 pi.2.2.1 (some (pi.2.1 + 1)) with
      | none => none
      | some (ys, t, c) => some (pi.1 ++ ys, t, c + 1)

/-- Embeds `Query._search(start, rows)`: the initial request omits
`start` when it is `0`, and the request page size is the query's
`_batch_size` (100 in `Query.__init__`). -/
def querySearch (fetch : Fetcher) (batchSize start rows fuel : Nat) :
    Option (List Doc × Nat × Nat) :=
  syncLoop fetch rows batchSize fuel 0 start 0 (if start ≠ 0 then some start else none)

/-- An accurate backend for the synchronous search endpoint: it serves the
fixed item list at the request's 1-based cursor (a missing `start` defaults
to `1`) and always reports the true total. -/
def accFetch (items : List Doc) : Fetcher :=
  fun _ req =>
    { results := (items.drop (req.start.getD 1 - 1)).take req.rows
      num_available := items.length }

/-- A call-indexed backend: the `k`-th call is answered with the `k`-th of
the given pages (empty once they run out) and a fixed advisory total `na`,
regardless of the request parameters. -/
def pageFetch (ps : List (List Doc)) (na : Nat) : Fetcher :=
  fun k _ => { results := ps.getD k [], num_available := na }

theorem syncProcessItems_zero (l : List Doc) :
    ∀ c n, syncProcessItems 0 c n l = (l, c + l.length, n + l.length, true) := by
  induction l with
  | nil => intro c n; simp [syncProcessItems]
  | cons x xs ih =>
    intro c n
    simp only [syncProcessItems, ne_eq, not_true_eq_false, false_and, if_false, ih,
      List.length_cons, Prod.mk.injEq, true_and, and_true]
    omega

theorem syncProcessItems_miss (K : Nat) (l : List Doc) :
    ∀ c n, n + l.length < K →
      syncProcessItems K c n l = (l, c + l.length, n + l.length, true) := by
  induction l with
  | nil => intro c n _; simp [syncProcessItems]
  | cons x xs ih =>
    intro c n h
    have hlen : n + (xs.length + 1) < K := by simpa using h
    have hne : ¬(K ≠ 0 ∧ n + 1 = K) := by omega
    have hrec := ih (c + 1) (n + 1) (by omega)
    simp only [syncProcessItems, if_neg hne, hrec, List.length_cons, Prod.mk.injEq,
      true_and, and_true]
    omega

theorem syncProcessItems_hit (K : Nat) (l : List Doc) :
    ∀ c n, n < K → K ≤ n + l.length →
      syncProcessItems K c n l = (l.take (K - n), c + (K - n), K, false) := by
  induction l with
  | nil => intro c n h1 h2; simp at h2; omega
  | cons x xs ih =>
    intro c n h1 h2
    by_cases hK : n + 1 = K
    · have hpos : K ≠ 0 ∧ n + 1 = K := ⟨by omega, hK⟩
      have h1' : K - n = 1 := by omega
      simp only [syncProcessItems, if_pos hpos, h1', List.take_succ_cons, List.take_zero,
        Prod.mk.injEq, true_and, and_true]
      omega
    · have hne : ¬(K ≠ 0 ∧ n + 1 = K) := by omega
      have h1' : n + 1 < K := by omega
      have h2' : K ≤ (n + 1) + xs.length := by simp only [List.length_cons] at h2; omega
      simp only [syncProcessItems, if_neg hne, ih (c + 1) (n + 1) h1' h2']
      have hKn : K - n = (K - (n + 1)) + 1 := by omega
      simp only [hKn, List.take_succ_cons, Prod.mk.injEq, true_and, and_true]
      omega

theorem ceilSteps_base (m B : Nat) (hB : 0 < B) (h1 : 0 < m) (h2 : m ≤ B) :
    (m + B - 1) / B = 1 := by
  have he : m + B - 1 = (m - 1) + B := by omega
  rw [he, Nat.add_div_right _ hB, Nat.div_eq_of_lt (by omega)]

theorem ceilSteps_succ (c B N : Nat) (hB : 0 < B) (h : B < N - c) :
    (N - c + B - 1) / B = (N - (c + B) + B - 1) / B + 1 := by
  have he : N - c + B - 1 = (N - (c + B) + B - 1) + B := by omega
  rw [he, Nat.add_div_right _ hB]

theorem syncLoop_acc (items : List Doc) (B : Nat) (hB : 0 < B) :
    ∀ fuel k c nr astart, c < items.length → items.length - c ≤ fuel * B →
      astart.getD 1 = c + 1 →
      syncLoop (accFetch items) 0 B fuel k c nr astart =
        some (items.drop c, items.length, (items.length - c + B - 1) / B) := by
  intro fuel
  induction fuel with
  | zero =>
    intro k c nr astart hc hfuel ha
    simp only [Nat.zero_mul, Nat.le_zero] at hfuel
    omega
  | succ f ih =>
    intro k c nr astart hc hfuel ha
    have hresp : accFetch items k { start := astart, rows := B } =
        { results := (items.drop c).take B, num_available := items.length } := by
      simp [accFetch, ha]
    simp only [syncLoop, hresp, syncProcessItems_zero]
    by_cases hcase : items.length - c ≤ B
    · have hpage : (items.drop c).take B = items.drop c :=
        List.take_of_length_le (by simp only [List.length_drop]; omega)
      have hcond : c + ((items.drop c).take B).length ≥ items.length := by
        rw [hpage]; simp only [List.length_drop]; omega
      rw [if_pos hcond, hpage, ceilSteps_base _ B hB (by omega) hcase]
    · have hL : ((items.drop c).take B).length = B := by
        simp only [List.length_take, List.length_drop]; omega
      have hcond1 : ¬(c + ((items.drop c).take B).length ≥ items.length) := by
        rw [hL]; omega
      have hne : ¬((items.drop c).take B = []) := by
        intro h0; rw [h0] at hL; simp at hL; omega
      have harg : items.length - (c + B) ≤ f * B := by
        have hmul : (f + 1) * B = f * B + B := Nat.succ_mul f B
        rw [hmul] at hfuel
        set q := f * B with hq
        omega
      have hrec := ih (k + 1) (c + B) (nr + B) (some (c + B + 1)) (by omega) harg (by simp)
      rw [if_neg hcond1, if_neg hne, if_neg (by simp), hL, hrec]
      have happ : (items.drop c).take B ++ items.drop (c + B) = items.drop c :=
        List.drop_take_append_drop items c B
      have hcnt := ceilSteps_succ c B items.length hB (by omega)
      simp only [happ, hcnt]

theorem syncLoop_acc_rows (items : List Doc) (B K : Nat) (hB : 0 < B) (hKN : K < items.length) :
    ∀ fuel k c astart, c < K → K - c ≤ fuel * B → astart.getD 1 = c + 1 →
      syncLoop (accFetch items) K B fuel k c c astart =
        some ((items.drop c).take (K - c), items.length, (K - c + B - 1) / B) := by
  intro fuel
  induction fuel with
  | zero =>
    intro k c astart hc hfuel ha
    simp only [Nat.zero_mul, Nat.le_zero] at hfuel
    omega
  | succ f ih =>
    intro k c astart hc hfuel ha
    have hresp : accFetch items k { start := astart, rows := B } =
        { results := (items.drop c).take B, num_available := items.length } := by
      simp [accFetch, ha]
    have hLmin : ((items.drop c).take B).length = min B (items.length - c) := by
      simp [List.length_take, List.length_drop]
    by_cases hcase : K - c ≤ ((items.drop c).take B).length
    · have hhit := syncProcessItems_hit K ((items.drop c).take B) c c hc (by omega)
      simp only [syncLoop, hresp, hhit]
      have hcond1 : ¬(K ≥ items.length) := by omega
      have hne : ¬((items.drop c).take B = []) := by
        intro h0; rw [h0] at hcase; simp at hcase; omega
      have hKB : K - c ≤ B := by omega
      have htk : ((items.drop c).take B).take (K - c) = (items.drop c).take (K - c) := by
        rw [List.take_take, Nat.min_eq_left hKB]
      have hc' : c + (K - c) = K := by omega
      rw [hc', if_neg hcond1, if_neg hne, if_pos trivial, htk,
        ceilSteps_base _ B hB (by omega) hKB]
    · have hL : ((items.drop c).take B).length = B := by
        rw [hLmin]; omega
      have hBK : B < K - c := by omega
      have hmiss := syncProcessItems_miss K ((items.drop c).take B) c c (by omega)
      simp only [syncLoop, hresp, hmiss, hL]
      have hcond1 : ¬(c + B ≥ items.length) := by omega
      have hne : ¬((items.drop c).take B = []) := by
        intro h0; rw [h0] at hL; simp at hL; omega
      have harg : K - (c + B) ≤ f * B := by
        have hmul : (f + 1) * B = f * B + B := Nat.succ_mul f B
        rw [hmul] at hfuel
        set q := f * B with hq
        omega
      have hrec := ih (k + 1) (c + B) (some (c + B + 1)) (by omega) harg (by simp)
      rw [if_neg hcond1, if_neg hne, if_neg (by simp), hrec]
      have hdd : (items.drop c).drop B = items.drop (c + B) := by
        rw [List.drop_drop]
      have happ : (items.drop c).take B ++ (items.drop (c + B)).take (K - (c + B)) =
          (items.drop c).take (K - c) := by
        have hsplit : K - c = B + (K - (c + B)) := by omega
        rw [hsplit, List.take_add, hdd]
      have hcnt := ceilSteps_succ c B K hB (by omega)
      simp only [happ, hcnt]

theorem syncLoop_pages (na B : Nat) :
    ∀ ps : List (List Doc), ∀ fetch : Fetcher, ∀ k c nr fuel astart,
      (∀ i req, fetch (k + i) req = { results := ps.getD i [], num_available := na }) →
      (∀ p ∈ ps, p ≠ []) →
      c + ps.flatten.length < na →
      ps.length + 1 ≤ fuel →
      syncLoop fetch 0 B fuel k c nr astart =
        some (ps.flatten, c + ps.flatten.length, ps.length + 1) := by
  intro ps
  induction ps with
  | nil =>
    intro fetch k c nr fuel astart hF hne hlt hfuel
    obtain ⟨f, rfl⟩ : ∃ f, fuel = f + 1 := ⟨fuel - 1, by omega⟩
    have hF0 : fetch k { start := astart, rows := B } =
        { results := ([] : List Doc), num_available := na } := by
      simpa using hF 0 { start := astart, rows := B }
    simp only [List.flatten_nil, List.length_nil, Nat.add_zero] at hlt ⊢
    simp only [syncLoop, hF0, syncProcessItems_zero, List.length_nil, Nat.add_zero]
    rw [if_neg (by omega), if_pos trivial]
  | cons p rest ih =>
    intro fetch k c nr fuel astart hF hne hlt hfuel
    obtain ⟨f, rfl⟩ : ∃ f, fuel = f + 1 := ⟨fuel - 1, by omega⟩
    have hF0 : fetch k { start := astart, rows := B } =
        { results := p, num_available := na } := by
      simpa using hF 0 { start := astart, rows := B }
    have hlt' : c + (p.length + rest.flatten.length) < na := by
      simpa [List.flatten_cons, List.length_append] using hlt
    have hp : p ≠ [] := hne p (List.mem_cons_self p rest)
    simp only [syncLoop, hF0, syncProcessItems_zero]
    have hF' : ∀ i req, fetch (k + 1 + i) req =
        { results := rest.getD i [], num_available := na } := by
      intro i req
      have h := hF (i + 1) req
      rw [List.getD_cons_succ] at h
      rwa [show k + (i + 1) = k + 1 + i by omega] at h
    have hrec := ih fetch (k + 1) (c + p.length) (nr + p.length) f (some (c + p.length + 1))
      hF' (fun q hq => hne q (List.mem_cons_of_mem p hq)) (by omega)
      (by simp only [List.length_cons] at hfuel; omega)
    rw [if_neg (by omega), if_neg hp, if_neg (by simp), hrec]
    simp only [List.flatten_cons, List.length_append, Option.some.injEq, Prod.mk.injEq,
      List.length_cons, true_and, and_true]
    omega

/-- C5: for a backend that accurately reports `num_available = N` and serves the
items in pages of size `B` (the configured batch size), iterating
`Query._search` with no row limit yields exactly the `N` items and performs
`ceil(N/B)` page fetches (the stop condition is checked on the last page
without a further fetch), whether or not `N` is a multiple of `B`. -/
theorem querySearch_pagination_termination (items : List Doc) (B fuel : Nat)
    (hB : 0 < B) (hN : 0 < items.length) (hfuel : items.length ≤ fuel * B) :
    querySearch (accFetch items) B 0 0 fuel =
      some (items, items.length, (items.length + B - 1) / B) := by
  unfold querySearch
  have h := syncLoop_acc items B hB fuel 0 0 0 (if (0 : Nat) ≠ 0 then some 0 else none)
    hN (by simpa using hfuel) (by simp)
  simpa using h

/-- Witness for C5 at a concrete input: 3 items in pages of 2 give 2 fetches. -/
theorem querySearch_pagination_termination_witness :
    querySearch (accFetch [10, 20, 30]) 2 0 0 3 = some ([10, 20, 30], 3, 2) := by
  have h := querySearch_pagination_termination [10, 20, 30] 2 3 (by decide) (by decide)
    (by decide)
  simpa using h

/-- C6: with a requested row limit `K` smaller than the `N` available items,
`Query._search` yields exactly the first `K` items, stops mid-page via the
`numrows == rows` break, and performs only the `ceil(K/B)` page fetches needed
to produce them (no further fetch after the limit is satisfied). -/
theorem querySearch_row_limit (items : List Doc) (B K fuel : Nat)
    (hB : 0 < B) (hK : 0 < K) (hKN : K < items.length) (hfuel : K ≤ fuel * B) :
    querySearch (accFetch items) B 0 K fuel =
      some (items.take K, items.length, (K + B - 1) / B) := by
  unfold querySearch
  have h := syncLoop_acc_rows items B K hB hKN fuel 0 0
    (if (0 : Nat) ≠ 0 then some 0 else none) hK (by simpa using hfuel) (by simp)
  simpa using h

/-- Witness for C6 at a concrete input: limit 3 of 5 items in pages of 2 gives
the first 3 items in 2 fetches. -/
theorem querySearch_row_limit_witness :
    querySearch (accFetch [1, 2, 3, 4, 5]) 2 0 3 2 = some ([1, 2, 3], 5, 2) := by
  have h := querySearch_row_limit [1, 2, 3, 4, 5] 2 3 2 (by decide) (by decide) (by decide)
    (by decide)
  simpa using h

/-- C4: when the backend reports `num_available = 100` on every page but only
delivers 40 items across non-empty pages followed by an empty page,
`Query._search` yields exactly those 40 items, clamps its tracked
`_total_results` down to the cursor value 40, and terminates without error
(performing one fetch per page plus the final empty fetch). -/
theorem querySearch_overreport (ps : List (List Doc)) (fuel : Nat)
    (hne : ∀ p ∈ ps, p ≠ []) (hlen : ps.flatten.length = 40)
    (hfuel : ps.length + 1 ≤ fuel) :
    querySearch (pageFetch ps 100) 100 0 0 fuel = some (ps.flatten, 40, ps.length + 1) := by
  unfold querySearch
  have h := syncLoop_pages 100 100 ps (pageFetch ps 100) 0 0 0 fuel
    (if (0 : Nat) ≠ 0 then some 0 else none)
    (fun i req => by simp [pageFetch]) hne (by omega) hfuel
  simpa [hlen] using h

/-- Witness for C4 at a concrete input: one page of 40 items under a reported
total of 100 yields the 40 items, total corrected to 40, in 2 fetches. -/
theorem querySearch_overreport_witness :
    querySearch (pageFetch [List.range 40] 100) 100 0 0 2 = some (List.range 40, 40, 2) := by
  have h := querySearch_overreport [List.range 40] 2 (by decide) (by decide) (by decide)
  simpa using h

/-- The body of the `for item in results:` loop of `AsyncProcessQuery._search`:
like the synchronous one but the row-limit break tests
`rows_fetched >= rows` rather than exact equality. -/
def asyncProcessItems (rows : Nat) : Nat → Nat → List Doc → List Doc × Nat × Nat × Bool
  | current, rowsFetched, [] => ([], current, rowsFetched, true)
  | current, rowsFetched, item :: rest =>
    if rows ≠ 0 ∧ rows ≤ rowsFetched + 1 then ([item], current + 1, rowsFetched + 1, false)
    else
      match asyncProcessItems rows (current + 1) (rowsFetched + 1) rest with
      | (ys, c, n, s) => (item :: ys, c, n, s)

/-- The `while still_fetching:` result-pagination loop of
`AsyncProcessQuery._search` (run after the job completes).  Arguments after
the fuel: the call index `k`, the `current` cursor and the `rows_fetched`
counter.  Each iteration requests `start=current&rows=10` (the batch size is
the hard-coded 10), yields the page, then clears `still_fetching` when
`current >= num_available` or the row limit was hit; there is no
empty-page stop.  Returns (yielded items, final total_results, number of
page fetches); `none` means fuel ran out. -/
def asyncPagLoop (fetch : Fetcher) (rows : Nat) :
    Nat → Nat → Nat → Nat → Option (List Doc × Nat × Nat)
  | 0, _, _, _ => none
  | fuel + 1, k, current, rowsFetched =>
    let resp := fetch k { start := some current, rows := 10 }
    let pi := asyncProcessItems rows current rowsFetched resp.results
    if pi.2.1 ≥ resp.num_available ∨ pi.2.2.2 = false then
      some (pi.1, resp.num_available, 1)
    else
      match asyncPagLoop fetch rows fuel (k + 1) pi.2.1 pi.2.2.1 with
      | none => none
      | some (ys, t, c) => some (pi.1 ++ ys, t, c + 1)

/-- Embeds the result-pagination phase of `AsyncProcessQuery._search(start, rows)`. -/
def asyncPagSearch (fetch : Fetcher) (start rows fuel : Nat) : Option (List Doc × Nat × Nat) :=
  asyncPagLoop fetch rows fuel 0 start 0

/-- An accurate backend for the job-results endpoint: it serves the fixed
item list at the request's 0-based `start` cursor and always reports the
true total.  (The async loop sends `start=current`, 0-based, where the
synchronous loop sends `current + 1`, 1-based.) -/
def accFetchA (items : List Doc) : Fetcher :=
  fun _ req =>
    { results := (items.drop (req.start.getD 0)).take req.rows
      num_available := items.length }

theorem asyncProcessItems_zero (l : List Doc) :
    ∀ c n, asyncProcessItems 0 c n l = (l, c + l.length, n + l.length, true) := by
  induction l with
  | nil => intro c n; simp [asyncProcessItems]
  | cons x xs ih =>
    intro c n
    simp only [asyncProcessItems, ne_eq, not_true_eq_false, false_and, if_false, ih,
      List.length_cons, Prod.mk.injEq, true_and, and_true]
    omega

theorem asyncPagLoop_acc (items : List Doc) :
    ∀ fuel k c rf, c < items.length → items.length - c ≤ fuel * 10 →
      asyncPagLoop (accFetchA items) 0 fuel k c rf =
        some (items.drop c, items.length, (items.length - c + 10 - 1) / 10) := by
  intro fuel
  induction fuel with
  | zero =>
    intro k c rf hc hfuel
    simp only [Nat.zero_mul, Nat.le_zero] at hfuel
    omega
  | succ f ih =>
    intro k c rf hc hfuel
    have hresp : accFetchA items k { start := some c, rows := 10 } =
        { results := (items.drop c).take 10, num_available := items.length } := by
      simp [accFetchA]
    simp only [asyncPagLoop, hresp, asyncProcessItems_zero]
    by_cases hcase : items.length - c ≤ 10
    · have hpage : (items.drop c).take 10 = items.drop c :=
        List.take_of_length_le (by simp only [List.length_drop]; omega)
      have hcond : c + ((items.drop c).take 10).length ≥ items.length ∨ (true = false) := by
        left; rw [hpage]; simp only [List.length_drop]; omega
      rw [if_pos hcond, hpage, ceilSteps_base _ 10 (by omega) (by omega) hcase]
    · have hL : ((items.drop c).take 10).length = 10 := by
        simp only [List.length_take, List.length_drop]; omega
      have hcond1 : ¬(c + ((items.drop c).take 10).length ≥ items.length ∨ (true = false)) := by
        rw [hL]; simp; omega
      have harg : items.length - (c + 10) ≤ f * 10 := by
        have hmul : (f + 1) * 10 = f * 10 + 10 := Nat.succ_mul f 10
        rw [hmul] at hfuel
        set q := f * 10 with hq
        omega
      have hrec := ih (k + 1) (c + 10) (rf + 10) (by omega) harg
      rw [if_neg hcond1, hL, hrec]
      have hdd : (items.drop c).drop 10 = items.drop (c + 10) := by
        rw [List.drop_drop]
      have happ : (items.drop c).take 10 ++ items.drop (c + 10) = items.drop c :=
        List.drop_take_append_drop items c 10
      have hcnt := ceilSteps_succ c 10 items.length (by omega) (by omega)
      simp only [happ, hcnt]

/-- A backend whose first page has one item but whose advisory total is 2,
and whose every later page is empty: the synchronous loop clamps and stops,
the async loop does not. -/
def cexFetch : Fetcher :=
  fun k _ => if k = 0 then { results := [7], num_available := 2 }
             else { results := [], num_available := 2 }

/-- Non-termination of the async result pagination at a given start and row
limit: no amount of fuel finishes the loop. -/
def asyncPagDiverges (fetch : Fetcher) (start rows : Nat) : Prop :=
  ∀ fuel, asyncPagSearch fetch start rows fuel = none

theorem asyncPagLoop_cex_stuck :
    ∀ fuel k rf, 1 ≤ k → asyncPagLoop cexFetch 0 fuel k 1 rf = none := by
  intro fuel
  induction fuel with
  | zero => intro k rf _; rfl
  | succ f ih =>
    intro k rf hk
    have hresp : cexFetch k { start := some 1, rows := 10 } =
        { results := [], num_available := 2 } := by
      simp [cexFetch]; omega
    simp only [asyncPagLoop, hresp, asyncProcessItems_zero, List.length_nil, Nat.add_zero]
    rw [if_neg (by simp), ih (k + 1) rf (by omega)]

/-- C2 counterexample: on a backend whose page sequence is `[7]` then empty
pages (with `num_available = 2` throughout), `Query._search` terminates —
yielding the single item and clamping the total to 1 in 2 fetches — while the
post-completion pagination loop of `AsyncProcessQuery._search` never
terminates, for any fuel: the two loops do not share the empty-page stop
condition. -/
theorem asyncPag_sync_divergence_cex :
    querySearch cexFetch 100 0 0 3 = some ([7], 1, 2) ∧ asyncPagDiverges cexFetch 0 0 := by
  constructor
  · decide
  · intro fuel
    cases fuel with
    | zero => rfl
    | succ f =>
      have hresp : cexFetch 0 { start := some 0, rows := 10 } =
          { results := [7], num_available := 2 } := by
        simp [cexFetch]
      simp only [asyncPagSearch, asyncPagLoop, hresp, asyncProcessItems_zero,
        List.length_cons, List.length_nil]
      rw [if_neg (by simp), asyncPagLoop_cex_stuck f 1 1 (by omega)]

/-- C2 (amended): over backends that serve every requested cursor accurately
(each in its own index base: the job-results endpoint is 0-based with the
hard-coded batch size 10, the synchronous endpoint 1-based with batch size
`B`), the async result-pagination loop of `AsyncProcessQuery._search` and
`Query._search` yield the same items — all of them, in order — and both stop
once the cursor reaches `num_available`.  The equivalence excludes the
empty-page stop rule, which only `Query._search` has (see the
counterexample): an empty page below the reported total hangs the async
loop. -/
theorem asyncPag_matches_querySearch (items : List Doc) (B fuelA fuelS : Nat)
    (hB : 0 < B) (hN : 0 < items.length)
    (hfa : items.length ≤ fuelA * 10) (hfs : items.length ≤ fuelS * B) :
    asyncPagSearch (accFetchA items) 0 0 fuelA =
        some (items, items.length, (items.length + 10 - 1) / 10) ∧
    querySearch (accFetch items) B 0 0 fuelS =
        some (items, items.length, (items.length + B - 1) / B) := by
  constructor
  · unfold asyncPagSearch
    have h := asyncPagLoop_acc items fuelA 0 0 0 hN (by simpa using hfa)
    simpa using h
  · unfold querySearch
    have h := syncLoop_acc items B hB fuelS 0 0 0 (if (0 : Nat) ≠ 0 then some 0 else none)
      hN (by simpa using hfs) (by simp)
    simpa using h

/-- Witness for the amended C2 at a concrete input: 15 items are fully
yielded by both loops (2 async fetches of 10, one synchronous fetch of 100). -/
theorem asyncPag_matches_querySearch_witness :
    asyncPagSearch (accFetchA (List.range 15)) 0 0 2 = some (List.range 15, 15, 2) ∧
    querySearch (accFetch (List.range 15)) 100 0 0 1 = some (List.range 15, 15, 1) := by
  have h := asyncPag_matches_querySearch (List.range 15) 100 2 1 (by decide) (by decide)
    (by decide) (by decide)
  simpa using h

/-- The searcher counts returned by the job-status endpoint. -/
structure JobStatus where
  contacted : Nat
  completed : Nat
deriving DecidableEq

/-- The decision logic of `AsyncProcessQuery._still_querying` once the status
has been fetched, as a function of the configured timeout, the submission
timestamp, the current clock (all in milliseconds) and the status counts.
Returns (still querying, timed-out flag was set).  The code returns `True`
(keep polling) when `contacted == 0`; when `completed < contacted` it keeps
polling unless a nonzero timeout has been exceeded, in which case it sets
`_timed_out` and returns `False`; otherwise the job is done. -/
def stillQueryingVerdict (timeout submitTime now : Nat) (s : JobStatus) : Bool × Bool :=
  if s.contacted = 0 then (true, false)
  else if s.completed < s.contacted then
    if timeout ≠ 0 ∧ now - submitTime > timeout then (false, true) else (true, false)
  else (false, false)

/-- The claim's reading of the poll outcome, quoted from the spec: done when
`contacted == 0` (nothing to search, treated as immediately complete) or
`completed >= contacted`. -/
def specPollDone (s : JobStatus) : Prop :=
  s.contacted = 0 ∨ s.contacted ≤ s.completed

/-- C1 counterexample: on a status response with `contacted = 0` (and no
timeout in play: timeout 5000 ms, only 100 ms elapsed), the claim says the
poll reports done, but `_still_querying` returns `True` — it keeps polling. -/
theorem stillQuerying_contacted_zero_cex :
    specPollDone ⟨0, 0⟩ ∧ (stillQueryingVerdict 5000 0 100 ⟨0, 0⟩).1 = true :=
  ⟨Or.inl rfl, rfl⟩

/-- C1 (amended): when the poll does not trip the timeout, `_still_querying`
reports done exactly when `contacted > 0` and `completed >= contacted`, and
reports still-running exactly when `contacted == 0` (job not yet picked up —
kept polling, not treated as complete) or `completed < contacted`. -/
theorem stillQuerying_done_iff (timeout submitTime now : Nat) (s : JobStatus)
    (h : timeout = 0 ∨ now - submitTime ≤ timeout) :
    (stillQueryingVerdict timeout submitTime now s).1 = false ↔
      0 < s.contacted ∧ s.contacted ≤ s.completed := by
  rcases s with ⟨c, comp⟩
  simp only [stillQueryingVerdict]
  split_ifs with h1 h2 h3 <;> simp <;> omega

/-- Witness for the amended C1: a finished status (contacted 2, completed 2)
under no timeout is reported done. -/
theorem stillQuerying_done_iff_witness :
    (stillQueryingVerdict 0 0 9999 ⟨2, 2⟩).1 = false ↔ 0 < 2 ∧ 2 ≤ 2 :=
  stillQuerying_done_iff 0 0 9999 ⟨2, 2⟩ (Or.inl rfl)

/-- The mutable state of an `AsyncProcessQuery` relevant to the job
controller: `_query_token` (backend job id, opaque — modelled as a natural),
`_timeout`, `_timed_out`, `_submit_time`, and the count cache
(`_count_valid`, `_total_results`). -/
structure AsyncQ where
  queryToken : Option Nat
  timeout : Nat
  timedOut : Bool
  submitTime : Nat
  countValid : Bool
  totalResults : Nat
deriving DecidableEq

/-- The external collaborators of the async job controller: the clock at
submission time, the job id the submission endpoint returns, the status
endpoint (per poll index), the clock at each poll's timeout check, the
`num_available` read by `_count` from the results endpoint, and the
results endpoint used by `_search` for pagination. -/
structure AsyncEnv where
  submitClock : Nat
  jobId : Nat
  status : Nat → JobStatus
  pollClock : Nat → Nat
  resultsNumAvailable : Nat
  fetchResults : Fetcher

/-- Embeds `AsyncProcessQuery._submit`: fails when a token is already
present, otherwise records the job id and the submission time and clears
the timed-out flag. -/
def asubmit (env : AsyncEnv) (st : AsyncQ) : Except Err AsyncQ :=
  match st.queryToken with
  | some tok => .error (.apiError ("Query already submitted: token " ++ toString tok))
  | none => .ok { st with queryToken := some env.jobId, timedOut := false,
                          submitTime := env.submitClock }

/-- The lazy-submission step at the top of `_still_querying` (and of
`_search`): `if not self._query_token: self._submit()`.  With no token
present `_submit`'s guard passes, so this never fails. -/
def ensureSubmitted (env : AsyncEnv) (st : AsyncQ) : AsyncQ :=
  match st.queryToken with
  | some _ => st
  | none => { st with queryToken := some env.jobId, timedOut := false,
                      submitTime := env.submitClock }

/-- Embeds one call of `AsyncProcessQuery._still_querying` (the `n`-th):
submits lazily if needed, fetches the `n`-th status, and applies the
verdict, recording the timed-out flag in the state. -/
def stillStep (env : AsyncEnv) (n : Nat) (st : AsyncQ) : AsyncQ × Bool :=
  let st1 := ensureSubmitted env st
  let v := stillQueryingVerdict st1.timeout st1.submitTime (env.pollClock n) (env.status n)
  (if v.2 then { st1 with timedOut := true } else st1, v.1)

/-- The `while self._still_querying(): time.sleep(.5)` loop shared by
`_count` and `_search`, polling from index `n`.  Returns the state after
the loop together with the number of polls made; `none` means fuel ran
out. -/
def pollLoop (env : AsyncEnv) : Nat → Nat → AsyncQ → Option (AsyncQ × Nat)
  | 0, _, _ => none
  | fuel + 1, n, st =>
    match stillStep env n st with
    | (st1, true) => pollLoop env fuel (n + 1) st1
    | (st1, false) => some (st1, n + 1)

/-- Embeds `AsyncProcessQuery._count`: returns the cached total when
`_count_valid` is set; otherwise polls to completion, raises `TimeoutError`
if the loop timed out, and otherwise reads `num_available` from the results
endpoint and caches it.  Returns (value, new state, number of transport
calls); `none` means polling fuel ran out. -/
def acount (env : AsyncEnv) (fuel : Nat) (st : AsyncQ) :
    Option (Except Err (Nat × AsyncQ × Nat)) :=
  if st.countValid then some (.ok (st.totalResults, st, 0))
  else
    let subCalls := if st.queryToken.isSome then 0 else 1
    match pollLoop env fuel 0 st with
    | none => none
    | some (st1, polls) =>
      if st1.timedOut then
        some (.error (.timeoutError "user-specified timeout exceeded while waiting for results"))
      else
        some (.ok (env.resultsNumAvailable,
          { st1 with totalResults := env.resultsNumAvailable, countValid := true },
          subCalls + polls + 1))

/-- Embeds `AsyncProcessQuery._search(start, rows)`: submits lazily, polls to
completion, raises `TimeoutError` if the loop timed out, then paginates the
job's results.  Returns (yielded items, new state, page fetches); `none`
means fuel (polling or pagination) ran out. -/
def asearch (env : AsyncEnv) (st : AsyncQ) (start rows pollFuel pageFuel : Nat) :
    Option (Except Err (List Doc × AsyncQ × Nat)) :=
  let st0 := ensureSubmitted env st
  match pollLoop env pollFuel 0 st0 with
  | none => none
  | some (st1, _polls) =>
    if st1.timedOut then
      some (.error (.timeoutError "user-specified timeout exceeded while waiting for results"))
    else
      match asyncPagLoop env.fetchResults rows pageFuel 0 start 0 with
      | none => none
      | some (ys, total, fetches) =>
        some (.ok (ys, { st1 with totalResults := total, countValid := true }, fetches))

/-- C8: calling `_submit` on an `AsyncProcessQuery` that already holds a job
token raises the already-submitted `ApiError` instead of resubmitting; a
token can therefore be assigned at most once per query instance. -/
theorem asubmit_already_submitted (env : AsyncEnv) (st : AsyncQ) (tok : Nat)
    (h : st.queryToken = some tok) :
    asubmit env st =
      .error (.apiError ("Query already submitted: token " ++ toString tok)) := by
  unfold asubmit
  rw [h]

/-- A concrete environment in which the job completes on the first poll. -/
def doneEnv : AsyncEnv :=
  { submitClock := 0, jobId := 9, status := fun _ => { contacted := 1, completed := 1 },
    pollClock := fun _ => 0, resultsNumAvailable := 7,
    fetchResults := fun _ _ => { results := [], num_available := 0 } }

/-- A fresh query state: no token, no timeout, nothing cached. -/
def freshQ : AsyncQ :=
  { queryToken := none, timeout := 0, timedOut := false, submitTime := 0,
    countValid := false, totalResults := 0 }

/-- The state of `freshQ` after a completed `_count` against `doneEnv`. -/
def cachedQ : AsyncQ :=
  { queryToken := some 9, timeout := 0, timedOut := false, submitTime := 0,
    countValid := true, totalResults := 7 }

/-- Witness for C8 at a concrete input. -/
theorem asubmit_already_submitted_witness :
    asubmit doneEnv cachedQ =
      .error (.apiError ("Query already submitted: token " ++ toString 9)) :=
  asubmit_already_submitted doneEnv cachedQ 9 rfl


/-- C7: once `AsyncProcessQuery._count` has returned a total, a repeat
`_count` on the resulting query state — under any environment and any
fuel — returns the same cached total, the state unchanged, with zero
transport calls: the count is cached for the query's lifetime. -/
theorem acount_idempotent (env env2 : AsyncEnv) (fuel fuel2 : Nat)
    (st st1 : AsyncQ) (v calls : Nat)
    (h : acount env fuel st = some (.ok (v, st1, calls))) :
    acount env2 fuel2 st1 = some (.ok (v, st1, 0)) := by
  by_cases hcv : st.countValid
  · unfold acount at h
    simp only [hcv, if_true, Option.some.injEq, Except.ok.injEq, Prod.mk.injEq] at h
    obtain ⟨hv, hst, -⟩ := h
    unfold acount
    rw [← hst, if_pos hcv, hv]
  · unfold acount at h
    simp only [hcv, if_false] at h
    rcases hpl : pollLoop env fuel 0 st with _ | ⟨st2, polls⟩
    · rw [hpl] at h
      exact absurd h (by simp)
    · rw [hpl] at h
      by_cases ht : st2.timedOut
      · simp [ht] at h
      · simp only [ht, Bool.false_eq_true, if_false, Option.some.injEq, Except.ok.injEq,
          Prod.mk.injEq] at h
        obtain ⟨hv, hst, -⟩ := h
        subst hst
        simp [acount, hv]

/-- Witness for C7: a first `_count` against `doneEnv` makes 3 transport
calls (submit, one poll, one results read) and returns 7; the repeat
`_count` returns the cached 7 with zero calls. -/
theorem acount_idempotent_witness :
    acount doneEnv 1 cachedQ = some (.ok (7, cachedQ, 0)) :=
  acount_idempotent doneEnv doneEnv 2 1 freshQ cachedQ 7 3 rfl

theorem pollLoop_timeout (env : AsyncEnv) (st : AsyncQ) (tok : Nat)
    (htok : st.queryToken = some tok) (hT : st.timeout ≠ 0)
    (hstat : ∀ n, 0 < (env.status n).contacted ∧
      (env.status n).completed < (env.status n).contacted) :
    ∀ fuel n, (∃ m, n ≤ m ∧ m < n + fuel ∧ env.pollClock m - st.submitTime > st.timeout) →
      ∃ polls, pollLoop env fuel n st = some ({ st with timedOut := true }, polls) := by
  have hens : ensureSubmitted env st = st := by
    unfold ensureSubmitted; rw [htok]
  intro fuel
  induction fuel with
  | zero =>
    intro n hex
    obtain ⟨m, h1, h2, h3⟩ := hex
    omega
  | succ f ih =>
    intro n hex
    have hc := hstat n
    by_cases hov : env.pollClock n - st.submitTime > st.timeout
    · have hverdict : stillQueryingVerdict st.timeout st.submitTime (env.pollClock n)
          (env.status n) = (false, true) := by
        unfold stillQueryingVerdict
        rw [if_neg (show ¬(env.status n).contacted = 0 by omega),
          if_pos hc.2, if_pos ⟨hT, hov⟩]
      have hstep : stillStep env n st = ({ st with timedOut := true }, false) := by
        simp [stillStep, hens, hverdict]
      exact ⟨n + 1, by simp only [pollLoop, hstep]⟩
    · have hverdict : stillQueryingVerdict st.timeout st.submitTime (env.pollClock n)
          (env.status n) = (true, false) := by
        unfold stillQueryingVerdict
        rw [if_neg (show ¬(env.status n).contacted = 0 by omega), if_pos hc.2,
          if_neg (show ¬(st.timeout ≠ 0 ∧ env.pollClock n - st.submitTime > st.timeout)
            from fun hcon => hov hcon.2)]
      have hstep : stillStep env n st = (st, true) := by
        simp [stillStep, hens, hverdict]
      obtain ⟨m, h1, h2, h3⟩ := hex
      have hm : n + 1 ≤ m := by
        rcases Nat.eq_or_lt_of_le h1 with rfl | hlt
        · exact absurd h3 hov
        · omega
      have hrec := ih (n + 1) ⟨m, hm, by omega, h3⟩
      simpa only [pollLoop, hstep] using hrec

/-- C3: for a submitted async query with a nonzero timeout, against a status
endpoint that always reports `contacted > 0` and `completed < contacted`,
both `_count` and `_search` raise `TimeoutError` once some poll observes an
elapsed time beyond the timeout — neither succeeds nor yields any items. -/
theorem async_timeout_consistency (env : AsyncEnv) (st : AsyncQ) (tok : Nat)
    (pollFuel pageFuel start rows : Nat)
    (htok : st.queryToken = some tok)
    (hcv : st.countValid = false)
    (hT : st.timeout ≠ 0)
    (hstat : ∀ n, 0 < (env.status n).contacted ∧
      (env.status n).completed < (env.status n).contacted)
    (hover : ∃ m, m < pollFuel ∧ env.pollClock m - st.submitTime > st.timeout) :
    acount env pollFuel st =
      some (.error (.timeoutError "user-specified timeout exceeded while waiting for results")) ∧
    asearch env st start rows pollFuel pageFuel =
      some (.error (.timeoutError "user-specified timeout exceeded while waiting for results")) := by
  obtain ⟨m, hm, hmo⟩ := hover
  obtain ⟨polls, hpoll⟩ := pollLoop_timeout env st tok htok hT hstat pollFuel 0
    ⟨m, Nat.zero_le m, by omega, hmo⟩
  have hens : ensureSubmitted env st = st := by
    unfold ensureSubmitted; rw [htok]
  constructor
  · simp [acount, hcv, hpoll]
  · simp [asearch, hens, hpoll]

/-- A concrete environment whose job never completes: every status response
is contacted 2, completed 1, and the clock advances one second per poll. -/
def timeoutEnv : AsyncEnv :=
  { submitClock := 0, jobId := 3, status := fun _ => { contacted := 2, completed := 1 },
    pollClock := fun n => 1000 * n, resultsNumAvailable := 0,
    fetchResults := fun _ _ => { results := [], num_available := 0 } }

/-- A query already submitted at time 0 with a 500 ms timeout. -/
def submittedQ : AsyncQ :=
  { queryToken := some 3, timeout := 500, timedOut := false, submitTime := 0,
    countValid := false, totalResults := 0 }

/-- Witness for C3 at a concrete input: with a 500 ms timeout and the second
poll arriving at 1000 ms, both `_count` and `_search` raise `TimeoutError`. -/
theorem async_timeout_consistency_witness :
    acount timeoutEnv 3 submittedQ =
      some (.error (.timeoutError "user-specified timeout exceeded while waiting for results")) ∧
    asearch timeoutEnv submittedQ 0 0 3 1 =
      some (.error (.timeoutError "user-specified timeout exceeded while waiting for results")) :=
  async_timeout_consistency timeoutEnv submittedQ 3 3 1 0 0 rfl rfl (by decide)
    (fun n => ⟨Nat.succ_pos 1, Nat.lt_succ_self 1⟩) ⟨1, by decide, by decide⟩

/-- The tree-fetch response: the child list (`results["nodes"]["children"]`)
and the completeness flag (`results["incomplete_results"]`). -/
structure TreeResp where
  children : List Doc
  incompleteResults : Bool
deriving DecidableEq

/-- The `while results["incomplete_results"]:` loop of
`TreeQuery._perform_query`: while the accumulator is flagged incomplete,
re-fetch (the `k`-th call) and extend the accumulator's child list with the
new response's children, replacing the flag.  Returns the accumulator and
the number of fetches made in the loop; `none` means fuel ran out while
still incomplete. -/
def treeLoop (fetch : Nat → TreeResp) : Nat → Nat → TreeResp → Option TreeResp × Nat
  | 0, _, acc => (if acc.incompleteResults then none else some acc, 0)
  | fuel + 1, k, acc =>
    if acc.incompleteResults then
      let r := fetch k
      let res := treeLoop fetch fuel (k + 1)
        { children := acc.children ++ r.children, incompleteResults := r.incompleteResults }
      (res.1, res.2 + 1)
    else (some acc, 0)

/-- Embeds `TreeQuery._perform_query`: fails with the missing-parameter
`ApiError` when `"process_guid"` is not among the accumulated argument keys
— before any transport call — and otherwise fetches once and runs the
accumulation loop.  Returns the outcome paired with the total number of
transport calls made. -/
def treePerformQuery (argKeys : List String) (fetch : Nat → TreeResp) (fuel : Nat) :
    Except Err (Option TreeResp) × Nat :=
  if "process_guid" ∈ argKeys then
    let res := treeLoop fetch fuel 1 (fetch 0)
    (.ok res.1, res.2 + 1)
  else (.error (.apiError "required parameter process_guid missing"), 0)

/-- C9: on a backend returning three responses with completeness flags
incomplete, incomplete, complete and singleton child lists `[a]`, `[b]`,
`[c]`, the tree fetch returns children `[a, b, c]` in order — each re-fetch
appends to the accumulator — and stops at the third (complete) response. -/
theorem treePerformQuery_accumulates (a b c : Doc) :
    treePerformQuery ["process_guid"]
      (fun k => [TreeResp.mk [a] true, TreeResp.mk [b] true, TreeResp.mk [c] false].getD k
        (TreeResp.mk [] false)) 5 =
      (.ok (some (TreeResp.mk [a, b, c] false)), 3) := by
  simp [treePerformQuery, treeLoop]

/-- C10: a tree fetch whose accumulated arguments lack the `process_guid`
key fails with the missing-parameter `ApiError` and makes zero transport
calls, for every backend and any fuel. -/
theorem treePerformQuery_missing_parameter (argKeys : List String)
    (fetch : Nat → TreeResp) (fuel : Nat) (h : "process_guid" ∉ argKeys) :
    treePerformQuery argKeys fetch fuel =
      (.error (.apiError "required parameter process_guid missing"), 0) := by
  unfold treePerformQuery
  rw [if_neg h]

/-- Witness for C10 at a concrete input: no arguments at all. -/
theorem treePerformQuery_missing_parameter_witness :
    treePerformQuery [] (fun _ => TreeResp.mk [] false) 3 =
      (.error (.apiError "required parameter process_guid missing"), 0) :=
  treePerformQuery_missing_parameter [] (fun _ => TreeResp.mk [] false) 3 (by simp)
